import Mathlib

/-!
Verification of the SpineML-to-GeNN translation core
(`spineMLModelCommon.cc` helpers and the `SpineMLNeuronModel` constructor).

The data model below is a shallow embedding of the XML subtree the code
reads (node and attribute names as consumed through pugixml), and the
definitions are direct translations of the C++ functions.  In pugixml an
absent child node behaves as a null node whose own children are empty
collections; the `Option Dynamics` field together with the accessor
functions mirrors that behaviour.
-/

namespace SpineMLGenerator

/-- An `OnCondition` transition node: its `target_regime` attribute, the
optional `Trigger/MathInline` text, its `StateAssignment` children as
(variable, MathInline) pairs, and whether it has an `EventOut[@port='spike']`
child. -/
structure OnCondition where
  target_regime : String
  trigger : Option String
  stateAssignments : List (String × String)
  spikeEventOut : Bool
deriving DecidableEq, Repr

/-- An `OnEvent` transition node (only its `target_regime` attribute is read
by the traversal). -/
structure OnEvent where
  target_regime : String
deriving DecidableEq, Repr

/-- An `OnImpulse` transition node (only its `target_regime` attribute is read
by the traversal). -/
structure OnImpulse where
  target_regime : String
deriving DecidableEq, Repr

/-- A `TimeDerivative` node: its `variable` attribute and `MathInline` text. -/
structure TimeDerivative where
  varName : String
  mathInline : String
deriving DecidableEq, Repr

/-- A `Regime` node with its `name` attribute and child transition /
derivative nodes in document order. -/
structure Regime where
  name : String
  onConditions : List OnCondition
  onEvents : List OnEvent
  onImpulses : List OnImpulse
  timeDerivatives : List TimeDerivative
deriving DecidableEq, Repr

/-- The `Dynamics` block: `Regime` children and `StateVariable` names in
document order. -/
structure Dynamics where
  regimes : List Regime
  stateVariables : List String
deriving DecidableEq, Repr

/-- A `ComponentClass` node: `name` and `type` attributes, optional
`Dynamics` child, and `Parameter` / `AnalogReceivePort` names in document
order. -/
structure ComponentClass where
  name : String
  typeAttr : String
  dynamics : Option Dynamics
  parameters : List String
  analogReceivePorts : List String
deriving DecidableEq, Repr

/-- The regimes reached through `componentClass.child("Dynamics")`; an absent
`Dynamics` child is pugixml's null node, whose `Regime` children form an
empty range. -/
def ComponentClass.regimes (c : ComponentClass) : List Regime :=
  match c.dynamics with
  | none => []
  | some d => d.regimes

/-- The `StateVariable` names under `Dynamics`, empty when `Dynamics` is
absent (null-node semantics). -/
def ComponentClass.stateVariableNames (c : ComponentClass) : List String :=
  match c.dynamics with
  | none => []
  | some d => d.stateVariables

/-- Lookup in an association list, as `std::map::find` over the stored
(key, value) pairs. -/
def alookup {β : Type} : List (String × β) → String → Option β
  | [], _ => none
  | (k, v) :: rest, x => if k = x then some v else alookup rest x

/-- One step of the regime-ID table construction: `std::map::insert` with the
pair `(name, regimeIDs.size())`, which leaves the map unchanged when the key
is already present. -/
def buildRegimeIDsAux : List (String × Nat) → List String → List (String × Nat)
  | m, [] => m
  | m, n :: ns =>
    buildRegimeIDsAux (if (alookup m n).isSome then m else m ++ [(n, m.length)]) ns

/-- The regime name → ID table built by `std::transform` over the `Regime`
children (both in `generateModelCode` and in the `SpineMLNeuronModel`
constructor): each new name is inserted with the map's current size. -/
def buildRegimeIDs (names : List String) : List (String × Nat) :=
  buildRegimeIDsAux [] names

/-- The subsequence of first occurrences of a list of names, in order. -/
def firstSeenAux : List String → List String → List String
  | fs, [] => fs
  | fs, n :: ns => firstSeenAux (if n ∈ fs then fs else fs ++ [n]) ns

/-- First occurrences of the regime names in document order. -/
def firstSeen (names : List String) : List String :=
  firstSeenAux [] names

/-- The behaviour of `std::map<std::string, unsigned int>::operator[]`: the
value when the key is present, otherwise the key is inserted with a
value-initialized `unsigned int`, i.e. `0`, and that `0` is returned. -/
def mapBracket (m : List (String × Nat)) (k : String) : List (String × Nat) × Nat :=
  match alookup m k with
  | some v => (m, v)
  | none => (m ++ [(k, 0)], 0)

/-- One invocation of an `ObjectHandler` or of the regime-end callback during
the traversal performed by `generateModelCode`. -/
inductive HandlerCall where
  | condition (currentRegimeID targetRegimeID : Nat)
  | event (currentRegimeID targetRegimeID : Nat)
  | impulse (currentRegimeID targetRegimeID : Nat)
  | timeDerivative (currentRegimeID targetRegimeID : Nat)
  | regimeEnd (multipleRegimes : Bool) (currentRegimeID : Nat)
deriving DecidableEq, Repr

/-- The loop over one kind of transition child: resolve the target regime ID
with `operator[]` (threading the map, which `operator[]` may grow) and invoke
the handler with `(currentRegimeID, targetRegimeID)`. -/
def processTransitions (curID : Nat) (mk : Nat → Nat → HandlerCall) :
    List String → List (String × Nat) → List (String × Nat) × List HandlerCall
  | [], m => (m, [])
  | t :: ts, m =>
    let p := mapBracket m t
    let rest := processTransitions curID mk ts p.1
    (rest.1, mk curID p.2 :: rest.2)

/-- The body of `generateModelCode`'s loop for one regime: `operator[]` on the
regime's own name, the `OnCondition` / `OnEvent` / `OnImpulse` loops, the
`TimeDerivative` loop (which passes the literal `0` as `targetRegimeID`), and
the regime-end callback. -/
def processRegime (mult : Bool) (m : List (String × Nat)) (r : Regime) :
    List (String × Nat) × List HandlerCall :=
  let pc := mapBracket m r.name
  let curID := pc.2
  let conds := processTransitions curID HandlerCall.condition
    (r.onConditions.map OnCondition.target_regime) pc.1
  let events := processTransitions curID HandlerCall.event
    (r.onEvents.map OnEvent.target_regime) conds.1
  let impulses := processTransitions curID HandlerCall.impulse
    (r.onImpulses.map OnImpulse.target_regime) events.1
  let derivs := r.timeDerivatives.map (fun _ => HandlerCall.timeDerivative curID 0)
  (impulses.1,
    conds.2 ++ events.2 ++ impulses.2 ++ derivs ++ [HandlerCall.regimeEnd mult curID])

/-- The regime loop of `generateModelCode`, in document order. -/
def processRegimes (mult : Bool) :
    List (String × Nat) → List Regime → List (String × Nat) × List HandlerCall
  | m, [] => (m, [])
  | m, r :: rs =>
    let p := processRegime mult m r
    let rest := processRegimes mult p.1 rs
    (rest.1, p.2 ++ rest.2)

/-- The result of `generateModelCode`: the sequence of handler invocations,
the final contents of the `regimeIDs` map (including any entries inserted by
`operator[]` on unknown target names), and the returned
`multipleRegimes` flag. -/
structure GenResult where
  calls : List HandlerCall
  regimeIDsFinal : List (String × Nat)
  multipleRegimes : Bool
deriving DecidableEq, Repr

/-- `SpineMLGenerator::generateModelCode`: build the regime-ID table, compute
`multipleRegimes`, then traverse the regimes invoking the object handlers and
the regime-end callback. -/
def generateModelCode (componentClass : ComponentClass) : GenResult :=
  let regimes := componentClass.regimes
  let regimeIDs := buildRegimeIDs (regimes.map Regime.name)
  let multipleRegimes := decide (regimeIDs.length > 1)
  let p := processRegimes multipleRegimes regimeIDs regimes
  ⟨p.2, p.1, multipleRegimes⟩

/-- Modelled from the spec: `CodeStream::OB` opens the brace block of a
regime guard (`if (regime==ID) \x7b ... \x7d`); its definition lives outside
the given sources. -/
def OB (_level : Nat) : String := "\x7b"

/-- Modelled from the spec: `CodeStream::CB` closes the brace block opened by
`OB`. -/
def CB (_level : Nat) : String := "\x7d"

/-- Modelled from the spec: `ENDL` ends an emitted statement line. -/
def ENDL : String := "\n"

/-- The state of `SpineMLGenerator::CodeStream`: the main accumulated output,
the per-regime scratch buffer, and the first-non-empty-regime flag. -/
structure CodeStream where
  codeStream : String
  currentRegimeStream : String
  firstNonEmptyRegime : Bool
deriving DecidableEq, Repr

/-- `SpineMLGenerator::CodeStream::onRegimeEnd`: if the scratch buffer is
non-empty (`tellp() > 0`), optionally open an `if`/`else if` regime guard,
flush the scratch buffer into the main stream, clear it, and close the
guard. -/
def CodeStream.onRegimeEnd (cs : CodeStream) (multipleRegimes : Bool)
    (currentRegimeID : Nat) : CodeStream :=
  if cs.currentRegimeStream = "" then cs
  else
    let cs1 :=
      if multipleRegimes then
        let cs0 :=
          if cs.firstNonEmptyRegime then { cs with firstNonEmptyRegime := false }
          else { cs with codeStream := cs.codeStream ++ "else " }
        { cs0 with codeStream :=
            cs0.codeStream ++ "if(_regimeID == " ++ toString currentRegimeID ++ ")" ++ OB 1 }
      else cs
    let cs2 := { cs1 with codeStream := cs1.codeStream ++ cs1.currentRegimeStream,
                          currentRegimeStream := "" }
    if multipleRegimes then { cs2 with codeStream := cs2.codeStream ++ CB 1 } else cs2

/-- A character of the class `[a-zA-Z_]`, the complement of the boundary
class used in the regex of `wrapAndReplaceVariableNames`. -/
def idChar (c : Char) : Bool :=
  ('a' ≤ c && c ≤ 'z') || ('A' ≤ c && c ≤ 'Z') || c = '_'

/-- Match a literal pattern at the head of a character list, returning the
remainder on success. -/
def matchHead : List Char → List Char → Option (List Char)
  | [], s => some s
  | _ :: _, [] => none
  | c :: cs, d :: ds => if c = d then matchHead cs ds else none

/-- The second capture group `($|[^a-zA-Z_])` of the regex: at end of input it
captures the empty string, otherwise it captures (and consumes) one
non-identifier character. -/
def boundaryTail : List Char → Option (List Char × List Char)
  | [] => some ([], [])
  | d :: ds => if idChar d then none else some ([d], ds)

/-- Attempt the `NAME($|[^a-zA-Z_])` part of the regex at the current
position, returning the captured right boundary and the remaining input. -/
def tryTail (name rest : List Char) : Option (List Char × List Char) :=
  (matchHead name rest).bind boundaryTail

/-- The replacement token `$(replaceVariableName)` inserted by the format
string `"$1$(" + replaceVariableName + ")$2"`. -/
def wrapTok (repl : List Char) : List Char :=
  '$' :: '(' :: (repl ++ [')'])

/-- The scan of `std::regex_replace` after position 0: at each position a
match must begin with the one-character group `[^a-zA-Z_]`; on a match the
replacement is emitted and scanning resumes after the consumed right
boundary (matches are non-overlapping), otherwise the character is copied.
The fuel argument is an upper bound on the remaining length, present only to
make the recursion structural. -/
def scanAux (name repl : List Char) : Nat → List Char → List Char
  | _, [] => []
  | 0, s => s
  | fuel + 1, c :: rest =>
    if idChar c then c :: scanAux name repl fuel rest
    else
      match tryTail name rest with
      | some (g2, rest') => c :: (wrapTok repl ++ g2 ++ scanAux name repl fuel rest')
      | none => c :: scanAux name repl fuel rest

/-- `std::regex_replace` with the pattern
`(^|[^a-zA-Z_])NAME($|[^a-zA-Z_])` and format `"$1$(REPL)$2"`: at position 0
the first alternative `^` captures the empty left boundary; everywhere else a
match consumes one non-identifier character as its left boundary. -/
def regexReplaceWrap (name repl s : List Char) : List Char :=
  match tryTail name s with
  | some (g2, rest') => wrapTok repl ++ g2 ++ scanAux name repl rest'.length rest'
  | none => scanAux name repl s.length s

/-- `SpineMLGenerator::wrapAndReplaceVariableNames` (the `code` argument is
passed by reference and mutated in C++; here the new contents are
returned). -/
def wrapAndReplaceVariableNames (code variableName replaceVariableName : String) : String :=
  ⟨regexReplaceWrap variableName.data replaceVariableName.data code.data⟩

/-- `SpineMLGenerator::wrapVariableNames`: wrap a variable name under the
same name. -/
def wrapVariableNames (code variableName : String) : String :=
  wrapAndReplaceVariableNames code variableName variableName

/-- Contiguous-substring occurrence test over character lists. -/
def occursIn (pat : List Char) : List Char → Bool
  | [] => (matchHead pat []).isSome
  | c :: rest => (matchHead pat (c :: rest)).isSome || occursIn pat rest

/-- Ordered insertion into a `std::set<std::string>`: keeps the elements
strictly sorted and ignores an element already present. -/
def setInsert : List String → String → List String
  | [], x => [x]
  | y :: ys, x =>
    if x < y then x :: y :: ys else if x = y then y :: ys else y :: setInsert ys x

/-- A `std::set<std::string>` built from a list of insertions. -/
def setOfList (xs : List String) : List String :=
  xs.foldl setInsert []

/-- `SpineMLGenerator::findModelVariables`: the GeNN variable set is the
caller's variable parameters united with the declared `StateVariable` names;
each declared `Parameter` not in that set becomes a free parameter name; the
variable list is the set (each typed `"scalar"`) with `("_regimeID",
"unsigned int")` appended iff the model has multiple regimes. -/
def findModelVariables (componentClass : ComponentClass)
    (variableParams : List String) (multipleRegimes : Bool) :
    List String × List (String × String) :=
  let gennVariables :=
    setOfList (variableParams ++ componentClass.stateVariableNames)
  let paramNames :=
    componentClass.parameters.filter (fun p => decide (p ∉ gennVariables))
  let vars :=
    (gennVariables.map fun vname => (vname, "scalar")) ++
      (if multipleRegimes then [("_regimeID", "unsigned int")] else [])
  (paramNames, vars)

/-- The `multipleRegimes` flag as the call sites derive it from the
component: the regime-ID table has more than one entry. -/
def multipleRegimesOf (componentClass : ComponentClass) : Bool :=
  decide ((buildRegimeIDs (componentClass.regimes.map Regime.name)).length > 1)

/-- `SpineMLGenerator::ParamValues`: the sparse name → value map (a
`std::map<std::string, double>`, looked up with `find`) together with the
owning model's parameter names in declared order. -/
structure ParamValues where
  m_Values : List (String × Rat)
  m_ModelParamNames : List String
deriving DecidableEq, Repr

/-- `SpineMLGenerator::ParamValues::getValues`: one value per declared
parameter name, in declared order; the mapped value when present, `0.0`
otherwise. -/
def ParamValues.getValues (pv : ParamValues) : List Rat :=
  pv.m_ModelParamNames.map fun n =>
    match alookup pv.m_Values n with
    | none => 0
    | some v => v

/-- `SpineMLGenerator::VarValues`: the sparse name → value map together with
the owning model's (name, type) variable list in declared order. -/
structure VarValues where
  m_Values : List (String × Rat)
  m_ModelVars : List (String × String)
deriving DecidableEq, Repr

/-- `SpineMLGenerator::VarValues::getValues`: one value per declared
variable, in declared order, keyed on the variable's name. -/
def VarValues.getValues (vv : VarValues) : List Rat :=
  vv.m_ModelVars.map fun n =>
    match alookup vv.m_Values n.1 with
    | none => 0
    | some v => v

/-- The nested `SpineMLNeuronModel::ParamValues`: it holds only the sparse
value map (a `std::map<std::string, double>`, so in ascending key order) and
no reference to the declared parameter order. -/
structure NeuronParamValues where
  m_Values : List (String × Rat)
deriving DecidableEq, Repr

/-- `SpineMLGenerator::SpineMLNeuronModel::ParamValues::getValues`: the
values of the sparse map in its own (key) order, with no padding and no
reference to the declared names. -/
def NeuronParamValues.getValues (pv : NeuronParamValues) : List Rat :=
  pv.m_Values.map Prod.snd

/-- The root `SpineML` node of a component document, possibly missing its
`ComponentClass` child. -/
structure SpineMLNode where
  componentClass : Option ComponentClass
deriving DecidableEq, Repr

/-- A parsed component document, possibly missing its root `SpineML` node. -/
structure XmlDoc where
  spineML : Option SpineMLNode
deriving DecidableEq, Repr

/-- The fields of `SpineMLGenerator::SpineMLNeuronModel` filled in by its
constructor. -/
structure NeuronModel where
  m_ParamNames : List String
  m_Vars : List (String × String)
  m_SimCode : String
  m_ThresholdConditionCode : String
deriving DecidableEq, Repr

/-- The mutable state of the constructor's regime loop: the `simCode` and
`thresholdCondition` streams, the `regimeIDs` map (which `operator[]` may
grow), and the `firstRegime` flag. -/
structure CtorState where
  simCode : String
  thresholdCondition : String
  regimeIDs : List (String × Nat)
  firstRegime : Bool
deriving DecidableEq, Repr

/-- The `EventOut[@port='spike']` step at the end of one `OnCondition`: when
present, OR the trigger (guarded by the current regime's ID, read through
`operator[]`) into the threshold condition stream. -/
def ctorSpikeEventOut (st : CtorState) (regimeName triggerText : String)
    (hasSpike : Bool) : CtorState :=
  if hasSpike then
    let p := mapBracket st.regimeIDs regimeName
    let pre :=
      if st.thresholdCondition.length > 0 then st.thresholdCondition ++ " || "
      else st.thresholdCondition
    { st with
        thresholdCondition :=
          pre ++ "(_regimeID == " ++ toString p.2 ++ " && (" ++ triggerText ++ "))",
        regimeIDs := p.1 }
  else st

/-- One `OnCondition` of the constructor's loop: require a
`Trigger/MathInline`, write the trigger test and the state assignments;
in a multi-regime model write the regime transition (resolving the target
with `operator[]`), in a single-regime model require the condition to target
its own regime; finally handle a spike `EventOut`. -/
def ctorCondition (mult : Bool) (regimeName : String) (st : CtorState)
    (cond : OnCondition) : Except String CtorState :=
  match cond.trigger with
  | none => .error "No trigger condition for transition between regimes"
  | some triggerText =>
    let sim := st.simCode ++ "if(" ++ triggerText ++ ")" ++ OB 2
    let sim := cond.stateAssignments.foldl
      (fun s a => s ++ a.1 ++ " = " ++ a.2 ++ ";" ++ ENDL) sim
    if mult then
      let p := mapBracket st.regimeIDs cond.target_regime
      let sim := sim ++ "_regimeID = " ++ toString p.2 ++ ";" ++ ENDL
      let st1 := { st with simCode := sim ++ CB 2, regimeIDs := p.1 }
      .ok (ctorSpikeEventOut st1 regimeName triggerText cond.spikeEventOut)
    else
      if cond.target_regime ≠ regimeName then
        .error "Condition found in single-regime model which doesn't target itself"
      else
        let st1 := { st with simCode := sim ++ CB 2 }
        .ok (ctorSpikeEventOut st1 regimeName triggerText cond.spikeEventOut)

/-- The constructor's loop over the `OnCondition` children of one regime. -/
def ctorConditions (mult : Bool) (regimeName : String) :
    CtorState → List OnCondition → Except String CtorState
  | st, [] => .ok st
  | st, c :: cs =>
    match ctorCondition mult regimeName st c with
    | .error e => .error e
    | .ok st1 => ctorConditions mult regimeName st1 cs

/-- One regime of the constructor's loop: when multi-regime, write the
`if`/`else if` regime guard before looking at the regime's content; process
the `OnCondition` children; write the Euler update for the first
`TimeDerivative` child (`regime.child` returns only the first); when
multi-regime, close the guard. -/
def ctorRegime (mult : Bool) (st : CtorState) (r : Regime) :
    Except String CtorState :=
  let p := mapBracket st.regimeIDs r.name
  let curID := p.2
  let st := { st with regimeIDs := p.1 }
  let st :=
    if mult then
      let st0 :=
        if st.firstRegime then { st with firstRegime := false }
        else { st with simCode := st.simCode ++ "else " }
      { st0 with simCode :=
          st0.simCode ++ "if(_regimeID == " ++ toString curID ++ ")" ++ OB 1 }
    else st
  match ctorConditions mult r.name st r.onConditions with
  | .error e => .error e
  | .ok st1 =>
    let st2 :=
      match r.timeDerivatives.head? with
      | none => st1
      | some td =>
        { st1 with simCode :=
            st1.simCode ++ td.varName ++ " += DT * (" ++ td.mathInline ++ ");" ++ ENDL }
    .ok (if mult then { st2 with simCode := st2.simCode ++ CB 1 } else st2)

/-- The constructor's loop over all regimes in document order. -/
def ctorRegimes (mult : Bool) :
    CtorState → List Regime → Except String CtorState
  | st, [] => .ok st
  | st, r :: rs =>
    match ctorRegime mult st r with
    | .error e => .error e
    | .ok st1 => ctorRegimes mult st1 rs

/-- The error message for a missing or wrongly typed `ComponentClass` node
(the constructor also interpolates the file url, which is not part of the
modelled document). -/
def wrongKindMsg : String :=
  "XML file is not a SpineML neuron body component - it's ComponentClass node is either missing or of the incorrect type"

/-- The `SpineMLGenerator::SpineMLNeuronModel` constructor on an already
parsed document: check the `SpineML` root and the `ComponentClass` kind,
build the regime-ID table, classify parameters against the GeNN variable
set, traverse the regimes building `simCode` and `thresholdCondition`, and
store the results.  A thrown `std::runtime_error` is an `Except.error`. -/
def SpineMLNeuronModelCtor (doc : XmlDoc) (variableParams : List String) :
    Except String NeuronModel :=
  match doc.spineML with
  | none => .error "XML file is not a SpineML component - it has no root SpineML node"
  | some spineML =>
    match spineML.componentClass with
    | none => .error wrongKindMsg
    | some componentClass =>
      if componentClass.typeAttr ≠ "neuron_body" then .error wrongKindMsg
      else
        let regimes := componentClass.regimes
        let regimeIDs := buildRegimeIDs (regimes.map Regime.name)
        let mult := decide (regimeIDs.length > 1)
        let gennVariables :=
          setOfList (variableParams ++ componentClass.stateVariableNames)
        let paramNames :=
          componentClass.parameters.filter (fun p => decide (p ∉ gennVariables))
        let vars :=
          (gennVariables.map fun vname => (vname, "scalar")) ++
            (if mult then [("_regimeID", "unsigned int")] else [])
        match ctorRegimes mult ⟨"", "", regimeIDs, true⟩ regimes with
        | .error e => .error e
        | .ok st => .ok ⟨paramNames, vars, st.simCode, st.thresholdCondition⟩

/-- The `simCode` of a successfully constructed model, `""` on a constructor
error. -/
def exceptSimCode : Except String NeuronModel → String
  | .error _ => ""
  | .ok m => m.m_SimCode

/-- A component with a single regime `A` whose `OnCondition` names the
unknown target regime `Ghost`. -/
def c1GhostComponent : ComponentClass :=
  ⟨"g", "neuron_body",
    some ⟨[⟨"A", [⟨"Ghost", some "V > 1", [], false⟩], [], [], []⟩], ["V"]⟩, [], []⟩

/-- A two-regime component whose second regime (ID 1) carries the only
`TimeDerivative`. -/
def c2TwoRegimeComponent : ComponentClass :=
  ⟨"c2", "neuron_body",
    some ⟨[⟨"A", [], [], [], []⟩, ⟨"B", [], [], [], [⟨"V", "-V"⟩]⟩], ["V"]⟩, [], []⟩

/-- A neuron-body document with two regimes where only regime `A` (ID 0)
emits any code; regime `B` (ID 1) is empty. -/
def c4TwoRegimeDoc : XmlDoc :=
  ⟨some ⟨some ⟨"c4", "neuron_body",
    some ⟨[⟨"A", [], [], [], [⟨"V", "-V/tau"⟩]⟩, ⟨"B", [], [], [], []⟩], ["V"]⟩,
    ["tau"], []⟩⟩⟩

/-- The sparse value map `b ↦ 2.5` handed to the nested neuron-model value
resolver. -/
def c5NeuronValues : NeuronParamValues :=
  ⟨[("b", (5 : Rat) / 2)]⟩

/-- A neuron model whose declared parameter order is `[a, b, c]`. -/
def c5NeuronModel : NeuronModel :=
  ⟨["a", "b", "c"], [], "", ""⟩

/-- A two-regime component that declares a `Parameter` literally named
`_regimeID`, the name of the synthetic regime-ID variable. -/
def c8ClashComponent : ComponentClass :=
  ⟨"c8", "neuron_body",
    some ⟨[⟨"A", [], [], [], []⟩, ⟨"B", [], [], [], []⟩], []⟩, ["_regimeID"], []⟩

/-- A component declaring one parameter and one state variable, used to
instantiate the classification theorem. -/
def c8WitnessComponent : ComponentClass :=
  ⟨"w8", "neuron_body", some ⟨[], ["V"]⟩, ["tau"], []⟩

/-- A well-formed neuron-body document whose `ComponentClass` has no
`Dynamics` child. -/
def c9NoDynamicsDoc : XmlDoc :=
  ⟨some ⟨some ⟨"nd", "neuron_body", none, ["p"], []⟩⟩⟩

/-- A document whose `ComponentClass` carries the wrong `type` attribute. -/
def c9WrongKindDoc : XmlDoc :=
  ⟨some ⟨some ⟨"wk", "postsynapse", some ⟨[], []⟩, [], []⟩⟩⟩

/-- A second no-`Dynamics` document, used to instantiate the general
configuration-error theorem. -/
def c9NoDynamicsDoc2 : XmlDoc :=
  ⟨some ⟨some ⟨"nd2", "neuron_body", none, [], []⟩⟩⟩

/-- A regime `A` whose only `OnCondition` targets the different regime `B`. -/
def c10Regime : Regime :=
  ⟨"A", [⟨"B", some "V > 1", [("V", "0")], true⟩], [], [], []⟩

/-- A single-regime neuron-body document whose `OnCondition` targets regime
`B` while living inside regime `A`. -/
def c10MismatchDoc : XmlDoc :=
  ⟨some ⟨some ⟨"c10", "neuron_body", some ⟨[c10Regime], ["V"]⟩, [], []⟩⟩⟩

/-- Claim C1: the claim says an unknown `target_regime` name fails with a
ReferenceError before any code is emitted and is never assigned a regime ID.
The code instead completes the traversal: `std::map::operator[]`
default-inserts `Ghost ↦ 0` into the regime-ID table and the condition
handler is invoked with `targetRegimeID = 0`, as this evaluation of
`generateModelCode` on the failing input shows. -/
theorem generateModelCode_ghost_silent :
    generateModelCode c1GhostComponent =
      ⟨[HandlerCall.condition 0 0, HandlerCall.regimeEnd false 0],
        [("A", 0), ("Ghost", 0)], false⟩ ∧
    alookup (generateModelCode c1GhostComponent).regimeIDsFinal "Ghost" = some 0 := by
  decide

/-- Claim C2 (counterexample): the derivative handler is not invoked with
`targetRegimeID = currentRegimeID`; for the `TimeDerivative` of regime `B`
(ID 1) the invocation carries `targetRegimeID = 0`, and no invocation with
`targetRegimeID = 1` happens. -/
theorem timeDerivative_target_not_current :
    HandlerCall.timeDerivative 1 0 ∈ (generateModelCode c2TwoRegimeComponent).calls ∧
    HandlerCall.timeDerivative 1 1 ∉ (generateModelCode c2TwoRegimeComponent).calls := by
  decide

/-- Claim C3 (counterexample): token substitution is not idempotent.
Wrapping `V` once in `"V"` yields `"$(V)"`; wrapping a second time re-wraps
the occurrence inside the parentheses (both `(` and `)` match the boundary
class `[^a-zA-Z_]`), yielding `"$($(V))"`. -/
theorem wrapVariableNames_not_idempotent :
    wrapVariableNames (wrapVariableNames "V" "V") "V" ≠ wrapVariableNames "V" "V" ∧
    wrapVariableNames "V" "V" = "$(V)" ∧
    wrapVariableNames (wrapVariableNames "V" "V") "V" = "$($(V))" := by
  decide

/-- Claim C6 (counterexample): not every standalone occurrence is rewritten.
In `"V V V"` all three occurrences of `V` are standalone, but the first
match consumes the following space as its right boundary, so the middle
occurrence has no left boundary left to match and stays bare. -/
theorem wrap_misses_adjacent_standalone :
    wrapVariableNames "V V V" "V" = "$(V) V $(V)" ∧
    wrapVariableNames "V V V" "V" ≠ "$(V) $(V) $(V)" := by
  decide

/-- Claim C4 (counterexample): in the `SpineMLNeuronModel` constructor the
regime guard is written before the regime's content is examined, so the
empty regime `B` (ID 1) contributes a dead `else if(_regimeID == 1)` guard
to `simCode`, contrary to the claim that an empty regime contributes no
guard and no text. -/
theorem neuronModel_dead_guard :
    exceptSimCode (SpineMLNeuronModelCtor c4TwoRegimeDoc []) =
      "if(_regimeID == 0)" ++ OB 1 ++ "V += DT * (-V/tau);" ++ ENDL ++ CB 1 ++
        "else " ++ "if(_regimeID == 1)" ++ OB 1 ++ CB 1 ∧
    occursIn "else if(_regimeID == 1)".data
      (exceptSimCode (SpineMLNeuronModelCtor c4TwoRegimeDoc [])).data = true := by
  decide

/-- Claim C5 (counterexample): `SpineMLNeuronModel::ParamValues::getValues`
ignores the declared parameter order.  With declared order `[a, b, c]` and
sparse map `b ↦ 2.5` it returns `[2.5]` — not `[0, 2.5, 0]` — and its length
is the size of the sparse map, not the number of declared names. -/
theorem neuron_getValues_ignores_declared_order :
    NeuronParamValues.getValues c5NeuronValues = [(5 : Rat) / 2] ∧
    NeuronParamValues.getValues c5NeuronValues ≠ [0, (5 : Rat) / 2, 0] ∧
    (NeuronParamValues.getValues c5NeuronValues).length ≠
      c5NeuronModel.m_ParamNames.length := by
  refine ⟨rfl, ?_, by decide⟩
  intro h
  exact absurd (congrArg List.length h) (by decide)

/-- Claim C8 (counterexample): a declared `Parameter` named `_regimeID` in a
multi-regime component lands in the free-parameter list (it is in no GeNN
variable set) and its name also appears in the variable list through the
synthetic regime-ID variable — so it appears in both lists. -/
theorem findModelVariables_regimeID_clash :
    "_regimeID" ∈ c8ClashComponent.parameters ∧
    "_regimeID" ∈ (findModelVariables c8ClashComponent [] (multipleRegimesOf c8ClashComponent)).1 ∧
    "_regimeID" ∈
      ((findModelVariables c8ClashComponent [] (multipleRegimesOf c8ClashComponent)).2.map Prod.fst) := by
  decide

/-- Claim C9 (counterexample): a `ComponentClass` of the right kind whose
`Dynamics` block is absent does not fail; the constructor completes and
returns a model with no regimes and empty code, because pugixml's null node
yields empty child collections and no check is performed. -/
theorem neuronModel_missing_dynamics_ok :
    SpineMLNeuronModelCtor c9NoDynamicsDoc [] = .ok ⟨["p"], [], "", ""⟩ ∧
    (SpineMLNeuronModelCtor c9NoDynamicsDoc []).isOk = true :=
  ⟨rfl, rfl⟩

lemma processTransitions_shape (curID : Nat) (mk : Nat → Nat → HandlerCall)
    (ts : List String) :
    ∀ m call, call ∈ (processTransitions curID mk ts m).2 → ∃ x, call = mk curID x := by
  induction ts with
  | nil => intro m call h; simp [processTransitions] at h
  | cons t ts ih =>
    intro m call h
    simp only [processTransitions, List.mem_cons] at h
    rcases h with h | h
    · exact ⟨(mapBracket m t).2, h⟩
    · exact ih _ call h

lemma processRegime_timeDerivative (mult : Bool) (m : List (String × Nat)) (r : Regime)
    (cur tgt : Nat)
    (h : HandlerCall.timeDerivative cur tgt ∈ (processRegime mult m r).2) : tgt = 0 := by
  simp only [processRegime, List.mem_append, List.mem_singleton] at h
  rcases h with (((h | h) | h) | h) | h
  · obtain ⟨x, hx⟩ := processTransitions_shape _ _ _ _ _ h
    exact absurd hx (by simp)
  · obtain ⟨x, hx⟩ := processTransitions_shape _ _ _ _ _ h
    exact absurd hx (by simp)
  · obtain ⟨x, hx⟩ := processTransitions_shape _ _ _ _ _ h
    exact absurd hx (by simp)
  · rcases List.mem_map.1 h with ⟨a, _, ha⟩
    injection ha with h1 h2
    exact h2.symm
  · simp at h

lemma processRegimes_timeDerivative (mult : Bool) (rs : List Regime) :
    ∀ m cur tgt,
      HandlerCall.timeDerivative cur tgt ∈ (processRegimes mult m rs).2 → tgt = 0 := by
  induction rs with
  | nil => intro m cur tgt h; simp [processRegimes] at h
  | cons r rs ih =>
    intro m cur tgt h
    simp only [processRegimes, List.mem_append] at h
    rcases h with h | h
    · exact processRegime_timeDerivative _ _ _ _ _ h
    · exact ih _ _ _ h

/-- Claim C2 (amended): during regime traversal every invocation of the
derivative handler carries `targetRegimeID = 0` — the literal zero the code
passes — which coincides with `currentRegimeID` only for the regime with
ID 0. -/
theorem timeDerivative_target_zero (componentClass : ComponentClass) (cur tgt : Nat)
    (h : HandlerCall.timeDerivative cur tgt ∈ (generateModelCode componentClass).calls) :
    tgt = 0 :=
  processRegimes_timeDerivative _ _ _ _ _ (by simpa [generateModelCode] using h)

/-- Claim C2 (witness): the derivative invocation of regime `B` in the
two-regime component indeed carries target `0`. -/
theorem timeDerivative_target_zero_witness : (0 : Nat) = 0 :=
  timeDerivative_target_zero c2TwoRegimeComponent 1 0 (by decide)

/-- Claim C3 (amended): token substitution is idempotent only on texts the
first application leaves unchanged; in general a second application
re-wraps an already wrapped occurrence, since `(` and `)` themselves match
the boundary class `[^a-zA-Z_]` of the regex. -/
theorem wrapVariableNames_idempotent_on_fixed (code variableName : String)
    (h : wrapVariableNames code variableName = code) :
    wrapVariableNames (wrapVariableNames code variableName) variableName =
      wrapVariableNames code variableName := by
  simp only [h]

/-- Claim C3 (witness): on a text without the name, wrapping twice equals
wrapping once. -/
theorem wrapVariableNames_idempotent_on_fixed_witness :
    wrapVariableNames (wrapVariableNames "x + y" "V") "V" =
      wrapVariableNames "x + y" "V" :=
  wrapVariableNames_idempotent_on_fixed "x + y" "V" (by decide)

lemma occursIn_false_matchHead (pat s : List Char) (h : occursIn pat s = false) :
    (matchHead pat s).isSome = false := by
  cases s with
  | nil => simpa [occursIn] using h
  | cons c rest =>
    simp only [occursIn, Bool.or_eq_false_iff] at h
    exact h.1

lemma matchHead_none_of_occursIn_false (pat s : List Char)
    (h : occursIn pat s = false) : matchHead pat s = none := by
  have := occursIn_false_matchHead pat s h
  cases hm : matchHead pat s with
  | none => rfl
  | some r => rw [hm] at this; simp at this

lemma scanAux_no_occurrence (name repl : List Char) (s : List Char) :
    ∀ fuel, s.length ≤ fuel → occursIn name s = false →
      scanAux name repl fuel s = s := by
  induction s with
  | nil => intro fuel _ _; cases fuel <;> rfl
  | cons c rest ih =>
    intro fuel hlen hocc
    cases fuel with
    | zero => simp at hlen
    | succ f =>
      have hlen2 : rest.length ≤ f := by
        simpa [Nat.succ_le_succ_iff] using hlen
      simp only [occursIn, Bool.or_eq_false_iff] at hocc
      have hocc2 : occursIn name rest = false := hocc.2
      have htt : tryTail name rest = none := by
        unfold tryTail
        rw [matchHead_none_of_occursIn_false name rest hocc2]
        rfl
      simp only [scanAux]
      by_cases hid : idChar c = true
      · simp [hid, ih f hlen2 hocc2]
      · simp [hid, htt, ih f hlen2 hocc2]

lemma regexReplaceWrap_no_occurrence (name repl s : List Char)
    (h : occursIn name s = false) : regexReplaceWrap name repl s = s := by
  have htt : tryTail name s = none := by
    unfold tryTail
    rw [matchHead_none_of_occursIn_false name s h]
    rfl
  simp [regexReplaceWrap, htt, scanAux_no_occurrence name repl s s.length le_rfl h]

/-- Claim C6 (amended): a standalone occurrence flanked by identifier
characters of `[a-zA-Z_]` is never rewritten (`"Vx + xV + V"` keeps its
first two `V`s and wraps the isolated one), and a text without any
occurrence of the name is left unchanged; but the rewrite misses a
standalone occurrence whose left boundary character was already consumed as
the right boundary of the preceding match. -/
theorem wrap_boundary_spec :
    wrapVariableNames "Vx + xV + V" "V" = "Vx + xV + $(V)" ∧
    ∀ code variableName : String,
      occursIn variableName.data code.data = false →
      wrapVariableNames code variableName = code := by
  constructor
  · decide
  · intro code variableName h
    show String.mk (regexReplaceWrap variableName.data variableName.data code.data) = code
    rw [regexReplaceWrap_no_occurrence _ _ _ h]

/-- Claim C6 (witness): a text without the name is unchanged. -/
theorem wrap_boundary_spec_witness :
    wrapVariableNames "a + b" "V" = "a + b" :=
  wrap_boundary_spec.2 "a + b" "V" (by decide)

/-- Claim C4 (amended): in the shared `CodeStream` assembler the claim holds:
an empty scratch buffer contributes no guard and no text; with a single
regime (`multipleRegimes = false`) the buffer is flushed verbatim with no
guard; with multiple regimes a non-empty buffer is wrapped in
`if(_regimeID == ID)` for the first non-empty regime and in `else if` for
subsequent ones.  (The neuron-model constructor, by contrast, emits a guard
for every regime — see the counterexample.) -/
theorem onRegimeEnd_spec (cs : CodeStream) (mult : Bool) (currentRegimeID : Nat) :
    (cs.currentRegimeStream = "" → cs.onRegimeEnd mult currentRegimeID = cs) ∧
    (cs.currentRegimeStream ≠ "" →
      cs.onRegimeEnd false currentRegimeID =
        ⟨cs.codeStream ++ cs.currentRegimeStream, "", cs.firstNonEmptyRegime⟩) ∧
    (cs.currentRegimeStream ≠ "" → cs.firstNonEmptyRegime = true →
      cs.onRegimeEnd true currentRegimeID =
        ⟨cs.codeStream ++ "if(_regimeID == " ++ toString currentRegimeID ++ ")" ++ OB 1 ++
          cs.currentRegimeStream ++ CB 1, "", false⟩) ∧
    (cs.currentRegimeStream ≠ "" → cs.firstNonEmptyRegime = false →
      cs.onRegimeEnd true currentRegimeID =
        ⟨cs.codeStream ++ "else " ++ "if(_regimeID == " ++ toString currentRegimeID ++ ")" ++
          OB 1 ++ cs.currentRegimeStream ++ CB 1, "", false⟩) := by
  refine ⟨fun h => ?_, fun h => ?_, fun h hf => ?_, fun h hf => ?_⟩
  · simp [CodeStream.onRegimeEnd, h]
  · simp [CodeStream.onRegimeEnd, h]
  · simp [CodeStream.onRegimeEnd, h, hf]
  · simp [CodeStream.onRegimeEnd, h, hf]

/-- Claim C4 (witness): instances of the four cases of `onRegimeEnd_spec` at
concrete states. -/
theorem onRegimeEnd_spec_witness :
    (⟨"acc", "", true⟩ : CodeStream).onRegimeEnd true 0 = ⟨"acc", "", true⟩ ∧
    (⟨"acc", "x;", true⟩ : CodeStream).onRegimeEnd false 0 =
      ⟨"acc" ++ "x;", "", true⟩ ∧
    (⟨"acc", "x;", true⟩ : CodeStream).onRegimeEnd true 0 =
      ⟨"acc" ++ "if(_regimeID == " ++ toString 0 ++ ")" ++ OB 1 ++ "x;" ++ CB 1, "", false⟩ ∧
    (⟨"acc", "x;", false⟩ : CodeStream).onRegimeEnd true 1 =
      ⟨"acc" ++ "else " ++ "if(_regimeID == " ++ toString 1 ++ ")" ++ OB 1 ++ "x;" ++ CB 1,
        "", false⟩ :=
  ⟨(onRegimeEnd_spec ⟨"acc", "", true⟩ true 0).1 rfl,
   (onRegimeEnd_spec ⟨"acc", "x;", true⟩ false 0).2.1 (by decide),
   (onRegimeEnd_spec ⟨"acc", "x;", true⟩ true 0).2.2.1 (by decide) rfl,
   (onRegimeEnd_spec ⟨"acc", "x;", false⟩ true 1).2.2.2 (by decide) rfl⟩

lemma alookup_zip_isSome (n : String) :
    ∀ (fs : List String) (l : List Nat), fs.length = l.length →
      ((alookup (fs.zip l) n).isSome = true ↔ n ∈ fs) := by
  intro fs
  induction fs with
  | nil => intro l h; simp [alookup]
  | cons a fsTail ih =>
    intro l h
    cases l with
    | nil => simp at h
    | cons x xs =>
      have hz : (a :: fsTail).zip (x :: xs) = (a, x) :: fsTail.zip xs := rfl
      rw [hz]
      simp only [alookup]
      by_cases hax : a = n
      · simp [hax]
      · rw [if_neg hax, ih xs (by simpa using h), List.mem_cons]
        constructor
        · exact fun hm => Or.inr hm
        · rintro (he | hm)
          · exact absurd he.symm hax
          · exact hm

lemma buildRegimeIDsAux_zip (names : List String) :
    ∀ fs : List String,
      buildRegimeIDsAux (fs.zip (List.range fs.length)) names =
        (firstSeenAux fs names).zip (List.range (firstSeenAux fs names).length) := by
  induction names with
  | nil => intro fs; rfl
  | cons n ns ih =>
    intro fs
    simp only [buildRegimeIDsAux, firstSeenAux]
    by_cases h : n ∈ fs
    · have hs : (alookup (fs.zip (List.range fs.length)) n).isSome = true :=
        (alookup_zip_isSome n fs _ (by simp)).2 h
      rw [if_pos hs, if_pos h]
      exact ih fs
    · have hs : ¬(alookup (fs.zip (List.range fs.length)) n).isSome = true :=
        fun hc => h ((alookup_zip_isSome n fs _ (by simp)).1 hc)
      rw [if_neg hs, if_neg h]
      have hzip :
          fs.zip (List.range fs.length) ++
              [(n, (fs.zip (List.range fs.length)).length)] =
            (fs ++ [n]).zip (List.range (fs ++ [n]).length) := by
        have hlen : (fs.zip (List.range fs.length)).length = fs.length := by simp
        rw [hlen, List.length_append, List.length_singleton, List.range_succ,
          List.zip_append (by simp)]
        rfl
      rw [hzip]
      exact ih (fs ++ [n])

lemma firstSeenAux_nodup (names : List String) :
    ∀ fs : List String, fs.Nodup → (firstSeenAux fs names).Nodup := by
  induction names with
  | nil => intro fs h; exact h
  | cons n ns ih =>
    intro fs h
    simp only [firstSeenAux]
    by_cases hm : n ∈ fs
    · rw [if_pos hm]; exact ih fs h
    · rw [if_neg hm]
      exact ih (fs ++ [n]) (by simp [List.nodup_append, h, hm])

lemma mem_firstSeenAux (names : List String) :
    ∀ fs a, a ∈ firstSeenAux fs names ↔ a ∈ fs ∨ a ∈ names := by
  induction names with
  | nil => intro fs a; simp [firstSeenAux]
  | cons n ns ih =>
    intro fs a
    simp only [firstSeenAux]
    by_cases hm : n ∈ fs
    · rw [if_pos hm, ih]
      constructor
      · rintro (h | h)
        · exact Or.inl h
        · exact Or.inr (List.mem_cons_of_mem n h)
      · rintro (h | h)
        · exact Or.inl h
        · rcases List.mem_cons.mp h with he | hmem
          · exact Or.inl (by rw [he]; exact hm)
          · exact Or.inr hmem
    · rw [if_neg hm, ih]
      constructor
      · rintro (h | h)
        · rcases List.mem_append.mp h with hf | hn
          · exact Or.inl hf
          · exact Or.inr (by rw [List.mem_singleton.mp hn]; exact List.mem_cons_self n ns)
        · exact Or.inr (List.mem_cons_of_mem n h)
      · rintro (h | h)
        · exact Or.inl (List.mem_append.mpr (Or.inl h))
        · rcases List.mem_cons.mp h with he | hmem
          · exact Or.inl (List.mem_append.mpr (Or.inr (by rw [he]; exact List.mem_singleton.mpr rfl)))
          · exact Or.inr hmem

/-- Claim C7: the regime-ID table is the first-seen (document-order)
sequence of distinct regime names zipped with `0, 1, 2, …`.  Its keys are
exactly the regime names without duplicates and its IDs are exactly
`0 … n-1` for the `n` distinct names, so the table is a dense bijection
assigned in first-seen document order. -/
theorem regimeIDs_dense_firstSeen (componentClass : ComponentClass) :
    buildRegimeIDs (componentClass.regimes.map Regime.name) =
      (firstSeen (componentClass.regimes.map Regime.name)).zip
        (List.range (firstSeen (componentClass.regimes.map Regime.name)).length) ∧
    (firstSeen (componentClass.regimes.map Regime.name)).Nodup ∧
    (∀ a, a ∈ firstSeen (componentClass.regimes.map Regime.name) ↔
        a ∈ componentClass.regimes.map Regime.name) ∧
    (buildRegimeIDs (componentClass.regimes.map Regime.name)).map Prod.snd =
      List.range (firstSeen (componentClass.regimes.map Regime.name)).length := by
  have h1 : buildRegimeIDs (componentClass.regimes.map Regime.name) =
      (firstSeen (componentClass.regimes.map Regime.name)).zip
        (List.range (firstSeen (componentClass.regimes.map Regime.name)).length) := by
    simpa [buildRegimeIDs, firstSeen] using
      buildRegimeIDsAux_zip (componentClass.regimes.map Regime.name) []
  refine ⟨h1, firstSeenAux_nodup _ [] List.nodup_nil, ?_, ?_⟩
  · intro a
    simpa [firstSeen] using mem_firstSeenAux (componentClass.regimes.map Regime.name) [] a
  · rw [h1]
    exact List.map_snd_zip _ _ (by simp)

lemma mem_setInsert (x a : String) :
    ∀ s : List String, a ∈ setInsert s x ↔ a = x ∨ a ∈ s := by
  intro s
  induction s with
  | nil => simp [setInsert]
  | cons y ys ih =>
    simp only [setInsert]
    by_cases hlt : x < y
    · rw [if_pos hlt]
      simp [List.mem_cons]
    · rw [if_neg hlt]
      by_cases heq : x = y
      · rw [if_pos heq]
        subst heq
        simp only [List.mem_cons]
        tauto
      · rw [if_neg heq]
        simp only [List.mem_cons, ih]
        tauto

lemma mem_setOfList_aux (a : String) :
    ∀ (xs acc : List String), a ∈ xs.foldl setInsert acc ↔ a ∈ acc ∨ a ∈ xs := by
  intro xs
  induction xs with
  | nil => intro acc; simp
  | cons x rest ih =>
    intro acc
    simp only [List.foldl_cons, ih, mem_setInsert, List.mem_cons]
    tauto

lemma mem_setOfList (a : String) (xs : List String) :
    a ∈ setOfList xs ↔ a ∈ xs := by
  simpa [setOfList] using mem_setOfList_aux a xs []

/-- Claim C8 (amended): provided the declared `Parameter` is not the reserved
name `_regimeID` of a multi-regime component, it appears in exactly one of
the free-parameter list and the variable list, landing in the variable list
iff it is in the caller's variable set or coincides with a declared
`StateVariable` name.  (A `Parameter` literally named `_regimeID` in a
multi-regime component appears in both lists — see the counterexample.) -/
theorem findModelVariables_partition (componentClass : ComponentClass)
    (variableParams : List String) (multipleRegimes : Bool) (p : String)
    (hp : p ∈ componentClass.parameters)
    (hreg : multipleRegimes = true → p ≠ "_regimeID") :
    ((p ∈ (findModelVariables componentClass variableParams multipleRegimes).1 ∧
      p ∉ (findModelVariables componentClass variableParams multipleRegimes).2.map Prod.fst) ∨
     (p ∉ (findModelVariables componentClass variableParams multipleRegimes).1 ∧
      p ∈ (findModelVariables componentClass variableParams multipleRegimes).2.map Prod.fst)) ∧
    ((p ∈ (findModelVariables componentClass variableParams multipleRegimes).2.map Prod.fst) ↔
      (p ∈ variableParams ∨ p ∈ componentClass.stateVariableNames)) := by
  have hvars : (findModelVariables componentClass variableParams multipleRegimes).2.map Prod.fst =
      setOfList (variableParams ++ componentClass.stateVariableNames) ++
        (if multipleRegimes then ["_regimeID"] else []) := by
    have hcomp : (Prod.fst ∘ fun vname : String => (vname, ("scalar" : String))) = id := rfl
    cases multipleRegimes <;>
      simp [findModelVariables, List.map_map, hcomp]
  have hmemv : p ∈ (findModelVariables componentClass variableParams multipleRegimes).2.map Prod.fst ↔
      p ∈ setOfList (variableParams ++ componentClass.stateVariableNames) := by
    rw [hvars, List.mem_append]
    constructor
    · rintro (h | h)
      · exact h
      · exfalso
        cases hmr : multipleRegimes with
        | false => rw [hmr] at h; simp at h
        | true =>
          rw [hmr] at h
          simp only [if_pos] at h
          exact hreg hmr (List.mem_singleton.mp h)
    · exact fun h => Or.inl h
  have hmemg : p ∈ setOfList (variableParams ++ componentClass.stateVariableNames) ↔
      (p ∈ variableParams ∨ p ∈ componentClass.stateVariableNames) := by
    rw [mem_setOfList, List.mem_append]
  have hmemp : p ∈ (findModelVariables componentClass variableParams multipleRegimes).1 ↔
      ¬p ∈ setOfList (variableParams ++ componentClass.stateVariableNames) := by
    simp only [findModelVariables, List.mem_filter, decide_eq_true_eq]
    exact ⟨fun h => h.2, fun h => ⟨hp, h⟩⟩
  refine ⟨?_, hmemv.trans hmemg⟩
  by_cases hg : p ∈ setOfList (variableParams ++ componentClass.stateVariableNames)
  · exact Or.inr ⟨fun hc => (hmemp.mp hc) hg, hmemv.mpr hg⟩
  · exact Or.inl ⟨hmemp.mpr hg, fun hc => hg (hmemv.mp hc)⟩

/-- Claim C8 (witness): an instance of the partition at a component with one
externally variable parameter and one state variable. -/
theorem findModelVariables_partition_witness :
    ((("tau" : String) ∈ (findModelVariables c8WitnessComponent [] true).1 ∧
      ("tau" : String) ∉ (findModelVariables c8WitnessComponent [] true).2.map Prod.fst) ∨
     (("tau" : String) ∉ (findModelVariables c8WitnessComponent [] true).1 ∧
      ("tau" : String) ∈ (findModelVariables c8WitnessComponent [] true).2.map Prod.fst)) ∧
    ((("tau" : String) ∈ (findModelVariables c8WitnessComponent [] true).2.map Prod.fst) ↔
      (("tau" : String) ∈ ([] : List String) ∨
        ("tau" : String) ∈ c8WitnessComponent.stateVariableNames)) :=
  findModelVariables_partition c8WitnessComponent [] true "tau" (by decide) (by decide)

/-- Claim C9 (amended): the constructor fails — before any classification or
code is produced — when the `SpineML` root is missing, when the
`ComponentClass` node is missing, or when its kind is not `neuron_body`;
but an absent `Dynamics` block is not an error: the constructor completes
with no regimes. -/
theorem neuronModel_config_errors (doc : XmlDoc) (variableParams : List String) :
    (doc.spineML = none →
      SpineMLNeuronModelCtor doc variableParams =
        .error "XML file is not a SpineML component - it has no root SpineML node") ∧
    (∀ s, doc.spineML = some s → s.componentClass = none →
      SpineMLNeuronModelCtor doc variableParams = .error wrongKindMsg) ∧
    (∀ s c, doc.spineML = some s → s.componentClass = some c →
      c.typeAttr ≠ "neuron_body" →
      SpineMLNeuronModelCtor doc variableParams = .error wrongKindMsg) ∧
    (∀ s c, doc.spineML = some s → s.componentClass = some c →
      c.typeAttr = "neuron_body" → c.dynamics = none →
      (SpineMLNeuronModelCtor doc variableParams).isOk = true) := by
  refine ⟨fun h => ?_, fun s h1 h2 => ?_, fun s c h1 h2 h3 => ?_,
    fun s c h1 h2 h3 h4 => ?_⟩
  · simp [SpineMLNeuronModelCtor, h]
  · simp [SpineMLNeuronModelCtor, h1, h2]
  · simp [SpineMLNeuronModelCtor, h1, h2, h3]
  · simp [SpineMLNeuronModelCtor, h1, h2, h3, ComponentClass.regimes,
      ComponentClass.stateVariableNames, h4, ctorRegimes, buildRegimeIDs,
      buildRegimeIDsAux, Except.isOk, Except.toBool]

/-- Claim C9 (witness): instances of the four cases at concrete documents. -/
theorem neuronModel_config_errors_witness :
    SpineMLNeuronModelCtor ⟨none⟩ [] =
      .error "XML file is not a SpineML component - it has no root SpineML node" ∧
    SpineMLNeuronModelCtor ⟨some ⟨none⟩⟩ [] = .error wrongKindMsg ∧
    SpineMLNeuronModelCtor c9WrongKindDoc [] = .error wrongKindMsg ∧
    (SpineMLNeuronModelCtor c9NoDynamicsDoc2 []).isOk = true :=
  ⟨(neuronModel_config_errors ⟨none⟩ []).1 rfl,
   (neuronModel_config_errors ⟨some ⟨none⟩⟩ []).2.1 ⟨none⟩ rfl rfl,
   (neuronModel_config_errors c9WrongKindDoc []).2.2.1 _ _ rfl rfl (by decide),
   (neuronModel_config_errors c9NoDynamicsDoc2 []).2.2.2 _ _ rfl rfl rfl rfl⟩

lemma ctorConditions_mismatch (regimeName : String) :
    ∀ (conds : List OnCondition) (st : CtorState),
      (∃ c ∈ conds, c.target_regime ≠ regimeName) →
      ((∃ e, ctorConditions false regimeName st conds = .error e) ∧
       ((∀ c ∈ conds, c.trigger.isSome = true) →
         ctorConditions false regimeName st conds =
           .error "Condition found in single-regime model which doesn't target itself")) := by
  intro conds
  induction conds with
  | nil => intro st hex; simp at hex
  | cons c cs ih =>
    intro st hex
    cases htr : c.trigger with
    | none =>
      have herr : ctorConditions false regimeName st (c :: cs) =
          .error "No trigger condition for transition between regimes" := by
        simp [ctorConditions, ctorCondition, htr]
      refine ⟨⟨_, herr⟩, fun hall => ?_⟩
      have := hall c (List.mem_cons_self c cs)
      rw [htr] at this
      simp at this
    | some t =>
      by_cases hmis : c.target_regime = regimeName
      · have hex2 : ∃ c0 ∈ cs, c0.target_regime ≠ regimeName := by
          rcases hex with ⟨c0, hc0, hne⟩
          rcases List.mem_cons.mp hc0 with he | hm
          · exact absurd (by rw [he, hmis]) hne
          · exact ⟨c0, hm, hne⟩
        cases hres : ctorCondition false regimeName st c with
        | error e =>
          exfalso
          simp [ctorCondition, htr, hmis] at hres
        | ok st1 =>
          have hstep : ctorConditions false regimeName st (c :: cs) =
              ctorConditions false regimeName st1 cs := by
            simp [ctorConditions, hres]
          rw [hstep]
          exact ⟨(ih st1 hex2).1, fun hall =>
            (ih st1 hex2).2 fun c0 hm => hall c0 (List.mem_cons_of_mem c hm)⟩
      · have herr : ctorConditions false regimeName st (c :: cs) =
            .error "Condition found in single-regime model which doesn't target itself" := by
          simp [ctorConditions, ctorCondition, htr, hmis]
        exact ⟨⟨_, herr⟩, fun _ => herr⟩

lemma ctorRegime_single (st : CtorState) (r : Regime)
    (hex : ∃ cond ∈ r.onConditions, cond.target_regime ≠ r.name) :
    (∃ e, ctorRegime false st r = .error e) ∧
    ((∀ cond ∈ r.onConditions, cond.trigger.isSome = true) →
      ctorRegime false st r =
        .error "Condition found in single-regime model which doesn't target itself") := by
  obtain ⟨hc1, hc2⟩ :=
    ctorConditions_mismatch r.name r.onConditions
      { st with regimeIDs := (mapBracket st.regimeIDs r.name).1 } hex
  constructor
  · rcases hc1 with ⟨e, he⟩
    exact ⟨e, by simp [ctorRegime, he]⟩
  · intro hall
    simp [ctorRegime, hc2 hall]

/-- Claim C10: in a neuron-body component with exactly one regime, an
`OnCondition` whose `target_regime` differs from the enclosing regime's
name makes the constructor throw — no model object is produced — and when
every condition carries a trigger the error is exactly "Condition found in
single-regime model which doesn't target itself". -/
theorem neuronModel_single_regime_mismatch_error (doc : XmlDoc)
    (variableParams : List String) (s : SpineMLNode) (c : ComponentClass)
    (dyn : Dynamics) (r : Regime)
    (h1 : doc.spineML = some s) (h2 : s.componentClass = some c)
    (h3 : c.typeAttr = "neuron_body") (h4 : c.dynamics = some dyn)
    (h5 : dyn.regimes = [r])
    (h6 : ∃ cond ∈ r.onConditions, cond.target_regime ≠ r.name) :
    (∃ e, SpineMLNeuronModelCtor doc variableParams = .error e) ∧
    ((∀ cond ∈ r.onConditions, cond.trigger.isSome = true) →
      SpineMLNeuronModelCtor doc variableParams =
        .error "Condition found in single-regime model which doesn't target itself") := by
  have hregs : c.regimes = [r] := by simp [ComponentClass.regimes, h4, h5]
  obtain ⟨hr1, hr2⟩ :=
    ctorRegime_single ⟨"", "", buildRegimeIDs [r.name], true⟩ r h6
  constructor
  · rcases hr1 with ⟨e, he⟩
    refine ⟨e, ?_⟩
    simp only [SpineMLNeuronModelCtor, h1, h2]
    rw [if_neg (by simp [h3])]
    simp only [hregs, List.map_cons, List.map_nil]
    rw [show decide ((buildRegimeIDs [r.name]).length > 1) = false from rfl]
    simp [ctorRegimes, he]
  · intro hall
    have he := hr2 hall
    simp only [SpineMLNeuronModelCtor, h1, h2]
    rw [if_neg (by simp [h3])]
    simp only [hregs, List.map_cons, List.map_nil]
    rw [show decide ((buildRegimeIDs [r.name]).length > 1) = false from rfl]
    simp [ctorRegimes, he]

/-- Claim C10 (witness): the concrete single-regime document with a
mistargeted condition yields exactly the expected error. -/
theorem neuronModel_single_regime_mismatch_error_witness :
    SpineMLNeuronModelCtor c10MismatchDoc [] =
      .error "Condition found in single-regime model which doesn't target itself" :=
  (neuronModel_single_regime_mismatch_error c10MismatchDoc [] _ _ _ c10Regime
    rfl rfl rfl rfl rfl (by decide)).2 (by decide)

lemma ParamValues_getValues_eq (pv : ParamValues) :
    pv.getValues = pv.m_ModelParamNames.map fun n => (alookup pv.m_Values n).getD 0 := by
  unfold ParamValues.getValues
  congr 1
  funext n
  cases alookup pv.m_Values n <;> rfl

lemma VarValues_getValues_eq (vv : VarValues) :
    vv.getValues = vv.m_ModelVars.map fun n => (alookup vv.m_Values n.1).getD 0 := by
  unfold VarValues.getValues
  congr 1
  funext n
  cases alookup vv.m_Values n.1 <;> rfl

/-- Claim C5 (amended): the shared resolvers `ParamValues::getValues` and
`VarValues::getValues` satisfy the contract — one literal per declared name
in declared order, the mapped value when present and `0.0` otherwise, with
sparse keys outside the declared names silently ignored, so the length
always equals the number of declared names.  (The nested
`SpineMLNeuronModel::ParamValues::getValues` does not — see the
counterexample.) -/
theorem getValues_spec :
    (∀ pv : ParamValues, pv.getValues.length = pv.m_ModelParamNames.length) ∧
    (∀ (pv : ParamValues) (i : Nat),
      pv.getValues[i]? =
        (pv.m_ModelParamNames[i]?).map fun n => (alookup pv.m_Values n).getD 0) ∧
    (∀ (pv : ParamValues) (k : String) (v : Rat), k ∉ pv.m_ModelParamNames →
      ParamValues.getValues ⟨(k, v) :: pv.m_Values, pv.m_ModelParamNames⟩ =
        pv.getValues) ∧
    (∀ vv : VarValues, vv.getValues.length = vv.m_ModelVars.length) ∧
    (∀ (vv : VarValues) (i : Nat),
      vv.getValues[i]? =
        (vv.m_ModelVars[i]?).map fun n => (alookup vv.m_Values n.1).getD 0) ∧
    (∀ (vv : VarValues) (k : String) (v : Rat), k ∉ vv.m_ModelVars.map Prod.fst →
      VarValues.getValues ⟨(k, v) :: vv.m_Values, vv.m_ModelVars⟩ = vv.getValues) := by
  refine ⟨fun pv => ?_, fun pv i => ?_, fun pv k v hk => ?_,
    fun vv => ?_, fun vv i => ?_, fun vv k v hk => ?_⟩
  · rw [ParamValues_getValues_eq]; simp
  · rw [ParamValues_getValues_eq]; simp
  · rw [ParamValues_getValues_eq, ParamValues_getValues_eq]
    refine List.map_congr_left fun n hn => ?_
    have hkn : ¬(k = n) := fun e => hk (e ▸ hn)
    simp [alookup, hkn]
  · rw [VarValues_getValues_eq]; simp
  · rw [VarValues_getValues_eq]; simp
  · rw [VarValues_getValues_eq, VarValues_getValues_eq]
    refine List.map_congr_left fun n hn => ?_
    have hkn : ¬(k = n.1) := fun e => hk (e ▸ List.mem_map_of_mem Prod.fst hn)
    simp [alookup, hkn]

/-- Claim C5 (witness): with declared order `[a, b, c]` and sparse map
`b ↦ 2.5`, an extra unknown key `z` is ignored, and the resolver produces
`[0, 2.5, 0]`. -/
theorem getValues_spec_witness :
    ParamValues.getValues ⟨[("z", 7), ("b", (5 : Rat) / 2)], ["a", "b", "c"]⟩ =
      ParamValues.getValues ⟨[("b", (5 : Rat) / 2)], ["a", "b", "c"]⟩ ∧
    ParamValues.getValues ⟨[("b", (5 : Rat) / 2)], ["a", "b", "c"]⟩ =
      [0, (5 : Rat) / 2, 0] :=
  ⟨getValues_spec.2.2.1 ⟨[("b", (5 : Rat) / 2)], ["a", "b", "c"]⟩ "z" 7 (by decide),
   rfl⟩

end SpineMLGenerator
